import Mathlib

/-!
Verification development for the Voice-Calender repository.

Shallow embedding of the event-extraction-and-normalization pipeline:
the JSON extractor, the event normalizers (scheduler and db helper), the
attendee email synthesis, the OpenAI session lifecycle, the connection
pool, and the daily-task scheduler.  Machine behaviour of the external
Python runtime (json.loads, datetime.fromisoformat, psycopg2 pools) is
modelled by executable Lean functions faithful to the fragments the
source exercises.
-/

set_option autoImplicit false

namespace VoiceCalender

/-! ## Basic Python-string helpers -/

/-- Python truthiness of an optional string: `None` and the empty string
are falsy, every other string is truthy. -/
def truthyS : Option String → Bool
  | none => false
  | some s => !(s == "")

/-- Python `x or y` on optional strings: yields `x` when truthy, else `y`. -/
def pyOrS (a b : Option String) : Option String :=
  if truthyS a then a else b

/-- Zero-padded two-digit decimal rendering, Python `f"{n:02d}"` for `n < 100`. -/
def pad2 (n : Nat) : String :=
  if n < 10 then "0" ++ toString n else toString n

/-- Zero-padded four-digit decimal rendering of a year. -/
def pad4 (n : Nat) : String :=
  if n < 10 then "000" ++ toString n
  else if n < 100 then "00" ++ toString n
  else if n < 1000 then "0" ++ toString n
  else toString n

/-- Does the character list `needle` occur at the head of `hay`? -/
def subAt : List Char → List Char → Bool
  | [], _ => true
  | _ :: _, [] => false
  | a :: as, b :: bs => a == b && subAt as bs

/-- Does the character list `needle` occur anywhere inside `hay`?
Models the Python `in` test on strings. -/
def hasSub (needle : List Char) : List Char → Bool
  | [] => subAt needle []
  | b :: bs => subAt needle (b :: bs) || hasSub needle bs

/-- Python `needle in hay` on strings. -/
def strContains (hay needle : String) : Bool :=
  hasSub needle.data hay.data

/-- Python `int(s)` restricted to nonnegative decimal literals: digits only,
nonempty; everything else is modelled as raising `ValueError`. -/
def decDigits? (s : String) : Option Nat :=
  if s.data ≠ [] && s.data.all Char.isDigit then
    some (s.data.foldl (fun n c => n * 10 + (c.toNat - 48)) 0)
  else none

/-- Python `c in s` for a single character. -/
def strHasChar (s : String) (c : Char) : Bool := s.data.contains c

/-- Split a character list at the first occurrence of `pat`, returning the
part before it and the part after it. -/
def splitAtSub (pat : List Char) : List Char → Option (List Char × List Char)
  | [] => if subAt pat [] then some ([], []) else none
  | c :: rest =>
    if subAt pat (c :: rest) then some ([], (c :: rest).drop pat.length)
    else
      match splitAtSub pat rest with
      | some (pre, post) => some (c :: pre, post)
      | none => none

def pySplitAux (sep : List Char) : Nat → List Char → List (List Char)
  | 0, l => [l]
  | fuel + 1, l =>
    match splitAtSub sep l with
    | none => [l]
    | some (pre, post) => pre :: pySplitAux sep fuel post

/-- Python `s.split(sep)` for a non-empty separator (keeps empty parts). -/
def pySplitOn (s sep : String) : List String :=
  (pySplitAux sep.data (s.data.length + 1) s.data).map List.asString

def pyReplaceAux (pat repl : List Char) : Nat → List Char → List Char
  | 0, l => l
  | fuel + 1, l =>
    match splitAtSub pat l with
    | none => l
    | some (pre, post) => pre ++ repl ++ pyReplaceAux pat repl fuel post

/-- Python `s.replace(pat, repl)` (every occurrence, left to right). -/
def pyReplace (s pat repl : String) : String :=
  (pyReplaceAux pat.data repl.data (s.data.length + 1) s.data).asString

/-- Regex `\s` and Python `str.strip` whitespace. -/
def reWsChar (c : Char) : Bool :=
  c == ' ' || c == '\t' || c == '\n' || c == '\r' || c == Char.ofNat 11 || c == Char.ofNat 12

def trimRe (l : List Char) : List Char :=
  ((l.dropWhile reWsChar).reverse.dropWhile reWsChar).reverse

/-- Python `s.strip()`. -/
def pyStrip (s : String) : String := (trimRe s.data).asString

/-! ## Daily summary task scheduling (app_calender_scheduler.py, lines 852-869)

`calculate_seconds_until_daily_task` reads the configured wall-clock hour
and minute, builds the target on the current day via `now.replace(...)`,
rolls it to the next day when `now >= target_today`, and returns the
remaining seconds.  Wall-clock instants are modelled at second resolution
as a day index plus seconds-within-day. -/

structure ClockTime where
  day : Nat
  sec : Nat
deriving DecidableEq, Repr

/-- Absolute second count of a wall-clock instant. -/
def ClockTime.abs (t : ClockTime) : Nat := t.day * 86400 + t.sec

/-- `calculate_seconds_until_daily_task`: seconds until the configured
daily target `hour:minute`, scheduling for tomorrow when the target time
today has already been reached or passed. -/
def calculate_seconds_until_daily_task (now : ClockTime) (hour minute : Nat) : Nat :=
  let targetSec := hour * 3600 + minute * 60
  let target_today : ClockTime := { day := now.day, sec := targetSec }
  let target_today :=
    if target_today.abs ≤ now.abs then { day := now.day + 1, sec := targetSec }
    else target_today
  target_today.abs - now.abs

/-! ## Attendee email synthesis (app_calender_scheduler.py, lines 334-342)

For each attendee dict lacking an `email` key the source synthesizes a
placeholder address from the display name.  Key absence is modelled with
`Option`; a present-but-empty string is `some ""` and is not repaired,
matching the `'email' not in attendee` test. -/

structure Attendee where
  email : Option String
  displayName : Option String
deriving DecidableEq, Repr

/-- The inline sanitization
`''.join(c for c in display_name if c.isalnum() or c == ' ').lower().replace(' ', '.')`:
keep only alphanumerics and spaces, lowercase, then turn spaces into dots. -/
def sanitize_display_name (s : String) : String :=
  (((s.data.filter (fun c => c.isAlphanum || c == ' ')).map Char.toLower).map
    (fun c => if c == ' ' then '.' else c)).asString

/-- Repair of one attendee at enumeration index `i`. -/
def fix_attendee (i : Nat) (a : Attendee) : Attendee :=
  match a.email with
  | some _ => a
  | none =>
    let display_name := a.displayName.getD ("attendee" ++ toString (i + 1))
    { a with email := some (sanitize_display_name display_name ++ "@example.com") }

/-- The `for i, attendee in enumerate(event['attendees'])` repair loop,
starting from index `i`. -/
def fix_attendees_from (i : Nat) : List Attendee → List Attendee
  | [] => []
  | a :: rest => fix_attendee i a :: fix_attendees_from (i + 1) rest

/-- Attendee list repair as performed by the scheduler. -/
def fix_attendees (l : List Attendee) : List Attendee :=
  fix_attendees_from 0 l

/-! ## Python datetime model

`datetime.fromisoformat`, `isoformat`, `timedelta(hours=h)` addition and
datetime comparison, restricted to the `YYYY-MM-DDTHH:MM:SS` shape at
second resolution (the shape the repository produces and consumes).
The model parser accepts a subset of what CPython accepts, validating the
same field ranges, so model-parse success implies CPython-parse success. -/

structure PyDateTime where
  year : Nat
  month : Nat
  day : Nat
  hour : Nat
  minute : Nat
  second : Nat
deriving DecidableEq, Repr

def isLeapYear (y : Nat) : Bool :=
  (y % 4 == 0 && y % 100 != 0) || y % 400 == 0

def daysInMonth (y m : Nat) : Nat :=
  if m == 2 then (if isLeapYear y then 29 else 28)
  else if m == 4 || m == 6 || m == 9 || m == 11 then 30
  else 31

/-- Field-range validity enforced by `datetime.fromisoformat`. -/
def PyDateTime.validB (d : PyDateTime) : Bool :=
  1 ≤ d.month && d.month ≤ 12 && 1 ≤ d.day && d.day ≤ daysInMonth d.year d.month &&
    d.hour ≤ 23 && d.minute ≤ 59 && d.second ≤ 59

/-- Total rank embedding for chronological comparison of datetimes. -/
def PyDateTime.rank (d : PyDateTime) : Nat :=
  d.second + 60 * (d.minute + 60 * (d.hour + 24 * (d.day + 32 * (d.month + 13 * d.year))))

/-- Advance a datetime by one hour, rolling day, month and year as needed. -/
def PyDateTime.succHour (d : PyDateTime) : PyDateTime :=
  if d.hour < 23 then { d with hour := d.hour + 1 }
  else if d.day < daysInMonth d.year d.month then { d with hour := 0, day := d.day + 1 }
  else if d.month < 12 then { d with hour := 0, day := 1, month := d.month + 1 }
  else { d with hour := 0, day := 1, month := 1, year := d.year + 1 }

/-- `d + timedelta(hours=n)`. -/
def PyDateTime.addHours (d : PyDateTime) : Nat → PyDateTime
  | 0 => d
  | n + 1 => (d.addHours n).succHour

/-- `datetime.isoformat()` at second resolution. -/
def PyDateTime.isoformat (d : PyDateTime) : String :=
  pad4 d.year ++ "-" ++ pad2 d.month ++ "-" ++ pad2 d.day ++ "T" ++
    pad2 d.hour ++ ":" ++ pad2 d.minute ++ ":" ++ pad2 d.second

/-- `datetime.fromisoformat` on the strict `YYYY-MM-DDTHH:MM:SS` shape;
any other input is modelled as raising `ValueError` (result `none`). -/
def pyFromIso (s : String) : Option PyDateTime :=
  match pySplitOn s "T" with
  | [ds, ts] =>
    match pySplitOn ds "-", pySplitOn ts ":" with
    | [ys, ms, dds], [hs, ns, ss] =>
      if ys.length == 4 && ms.length == 2 && dds.length == 2 &&
          hs.length == 2 && ns.length == 2 && ss.length == 2 then
        match decDigits? ys, decDigits? ms, decDigits? dds,
            decDigits? hs, decDigits? ns, decDigits? ss with
        | some y, some mo, some da, some h, some mi, some se =>
          let d : PyDateTime := ⟨y, mo, da, h, mi, se⟩
          if d.validB then some d else none
        | _, _, _, _, _, _ => none
      else none
    | _, _ => none
  | _ => none

theorem one_le_daysInMonth (y m : Nat) : 1 ≤ daysInMonth y m := by
  unfold daysInMonth
  split
  · split <;> omega
  · split <;> omega

theorem daysInMonth_le_31 (y m : Nat) : daysInMonth y m ≤ 31 := by
  unfold daysInMonth
  split
  · split <;> omega
  · split <;> omega

theorem succHour_validB {d : PyDateTime} (h : d.validB = true) :
    d.succHour.validB = true := by
  have l2 := one_le_daysInMonth d.year (d.month + 1)
  have l3 := one_le_daysInMonth (d.year + 1) 1
  unfold PyDateTime.validB at h ⊢
  unfold PyDateTime.succHour
  simp only [Bool.and_eq_true, decide_eq_true_eq] at h
  repeat' split
  all_goals (simp only [Bool.and_eq_true, decide_eq_true_eq]; omega)

theorem succHour_rank_lt {d : PyDateTime} (h : d.validB = true) :
    d.rank < d.succHour.rank := by
  have hdm := daysInMonth_le_31 d.year d.month
  unfold PyDateTime.validB at h
  unfold PyDateTime.succHour
  simp only [Bool.and_eq_true, decide_eq_true_eq] at h
  unfold PyDateTime.rank
  repeat' split
  all_goals (simp only [Bool.and_eq_true, decide_eq_true_eq]; omega)

theorem addHours_validB {d : PyDateTime} (h : d.validB = true) (n : Nat) :
    (d.addHours n).validB = true := by
  induction n with
  | zero => exact h
  | succ k ih => exact succHour_validB ih

theorem addHours_rank_lt {d : PyDateTime} (h : d.validB = true) {n : Nat}
    (hn : 0 < n) : d.rank < (d.addHours n).rank := by
  induction n with
  | zero => omega
  | succ k ih =>
    rcases Nat.eq_zero_or_pos k with hk | hk
    · subst hk
      exact succHour_rank_lt h
    · exact lt_trans (ih hk) (succHour_rank_lt (addHours_validB h k))

theorem pyFromIso_validB {s : String} {d : PyDateTime}
    (h : pyFromIso s = some d) : d.validB = true := by
  unfold pyFromIso at h
  repeat' split at h
  all_goals simp_all
  exact h.2 ▸ h.1

/-! ## Event data model

JSON event dicts as produced by the extraction step.  A key that may be
absent is an `Option`; `some ""` models a present-but-empty value, which
Python distinguishes from an absent key (`'k' in d` versus `d.get('k')`
truthiness). -/

structure EventTime where
  dateTime : Option String
  date : Option String
  timeZone : Option String
deriving DecidableEq, Repr

/-- Python dict truthiness of an optional start/end sub-dict: absent or
empty dicts are falsy. -/
def truthyTime : Option EventTime → Bool
  | none => false
  | some t => t.dateTime.isSome || t.date.isSome || t.timeZone.isSome

def EventTime.empty : EventTime := ⟨none, none, none⟩

structure EventJson where
  summary : Option String
  location : Option String
  description : Option String
  start : Option EventTime
  end_ : Option EventTime
  attendees : Option (List Attendee)
  recurrence : Option (List String)
  reminders : Option String
  visibility : Option String
  colorId : Option String
  transparency : Option String
  status : Option String
deriving DecidableEq, Repr

def EventJson.empty : EventJson :=
  ⟨none, none, none, none, none, none, none, none, none, none, none, none⟩

/-! ## End-time synthesis, scheduler version
(app_calender_scheduler.py, lines 286-332)

When an event has no usable end, the scheduler copies the start fields to
`end` and, when `start.dateTime` is present, splits off a trailing
timezone suffix, parses the rest, adds the configured duration and
reattaches the suffix; if parsing raises it falls back to a string-level
hour increment modulo 24. -/

/-- The timezone-suffix split at the top of the end-time computation:
`'+' in dt_str` keeps the part before the first plus and the part after
it (later plus-separated parts are dropped, as in the source);
otherwise a `Z` anywhere is removed (all occurrences) and remembered. -/
def split_tz_suffix (s : String) : String × String :=
  if strHasChar s '+' then
    let dt_parts := pySplitOn s "+"
    (dt_parts.headD "", "+" ++ (dt_parts.get? 1).getD "")
  else if strHasChar s 'Z' then
    (pyReplace s "Z" "", "Z")
  else (s, "")

/-- `fromisoformat` exactly as the scheduler invokes it: on the stripped
string when it contains a `T`, otherwise on the string with a midnight
time appended. -/
def parse_start_dt (dt_str : String) : Option PyDateTime :=
  if strHasChar dt_str 'T' then pyFromIso dt_str
  else pyFromIso (dt_str ++ "T00:00:00")

/-- Result of the end-`dateTime` computation: a new value was assigned,
the copied start value was silently kept (fallback guards failed), or an
exception escaped the fallback (`int(...)` raising). -/
inductive EndSynthResult where
  | set (s : String)
  | keepCopy
  | raised
deriving DecidableEq, Repr

/-- The end-`dateTime` computation for an event whose start carries a
`dateTime` value `start_dt`, with configured duration `dur` hours. -/
def add_end_time_from_start (dur : Nat) (start_dt : String) : EndSynthResult :=
  let pr := split_tz_suffix start_dt
  match parse_start_dt pr.1 with
  | some d => .set ((d.addHours dur).isoformat ++ pr.2)
  | none =>
    match pySplitOn start_dt "T" with
    | [date_part, time_str] =>
      let time_parts := pySplitOn time_str ":"
      if 2 ≤ time_parts.length then
        match decDigits? (time_parts.headD "") with
        | some hour =>
          let new_hour := (hour + dur) % 24
          .set (date_part ++ "T" ++ String.intercalate ":" (pad2 new_hour :: time_parts.tail))
        | none => .raised
      else .keepCopy
    | _ => .keepCopy

/-- The whole `add_end_time_if_missing` block of the scheduler loop:
checks for a usable end, copies present start fields over, and runs the
duration arithmetic when `start.dateTime` is present.  `none` models the
per-event exception escaping the fallback. -/
def fill_end (dur : Nat) (ev : EventJson) : Option EventJson :=
  let has_valid_end :=
    match ev.end_ with
    | some e => truthyS e.dateTime || truthyS e.date
    | none => false
  if has_valid_end then some ev
  else
    match ev.start with
    | none => some ev
    | some st =>
      let e0 := ev.end_.getD EventTime.empty
      let e1 : EventTime :=
        { e0 with
          dateTime := if st.dateTime.isSome then st.dateTime else e0.dateTime
          date := if st.date.isSome then st.date else e0.date }
      match st.dateTime with
      | none => some { ev with end_ := some e1 }
      | some sdt =>
        match add_end_time_from_start dur sdt with
        | .set s => some { ev with end_ := some { e1 with dateTime := some s } }
        | .keepCopy => some { ev with end_ := some e1 }
        | .raised => none

/-! ## Flexible validation helper (db_utils/save_event_helper.py, lines 16-104)

`validate_and_complete_event` repairs a partial event dict: placeholder
summary, current-time start, synthesized end.  It returns the triple
`(is_valid, completed_data, error_message)`; for a falsy input dict it
returns `(False, None, "Event data is empty")`. -/

/-- Python `now.strftime("%Y-%m-%d %H:%M")`. -/
def format_minute (d : PyDateTime) : String :=
  pad4 d.year ++ "-" ++ pad2 d.month ++ "-" ++ pad2 d.day ++ " " ++
    pad2 d.hour ++ ":" ++ pad2 d.minute

/-- The helper's timezone split `start_dt.split('+', 1)` (everything after
the first plus is kept in the suffix), or removal of every `Z`. -/
def split_tz_suffix_once (s : String) : String × String :=
  if strHasChar s '+' then
    let parts := pySplitOn s "+"
    (parts.headD "", "+" ++ String.intercalate "+" parts.tail)
  else if strHasChar s 'Z' then (pyReplace s "Z" "", "Z")
  else (s, "")

/-- The summary repair block: derive a summary from the description's
first line (30 chars) or synthesize a timestamped placeholder. -/
def complete_summary (now : PyDateTime) (data : EventJson) : EventJson :=
  if truthyS data.summary then data
  else if truthyS data.description then
    { data with
      summary := some (((pySplitOn (pyStrip (data.description.getD "")) "\n").headD "").take 30) }
  else
    { data with summary := some ("Calendar Event " ++ format_minute now) }

/-- The start repair block: a start with neither a truthy `dateTime` nor
a truthy `date` gets the current time in ISO form. -/
def complete_start (now : PyDateTime) (data : EventJson) : EventJson :=
  let start_data := data.start.getD EventTime.empty
  if truthyS (pyOrS start_data.dateTime start_data.date) then data
  else { data with start := some { start_data with dateTime := some now.isoformat } }

/-- The end repair block: a missing end is synthesized from the start,
adding one hour when `start.dateTime` parses, copying the start value
when it does not contain a `T` or fails to parse, and copying the date
for all-day events. -/
def complete_end (data : EventJson) : EventJson :=
  let end_data := data.end_.getD EventTime.empty
  if truthyS (pyOrS end_data.dateTime end_data.date) then data
  else
    let st := data.start.getD EventTime.empty
    let data := { data with end_ := some end_data }
    match st.dateTime with
    | some sdt =>
      let newVal :=
        if strHasChar sdt 'T' then
          let pr := split_tz_suffix_once sdt
          match pyFromIso (pyReplace pr.1 "Z" "") with
          | some dt_obj => (dt_obj.addHours 1).isoformat ++ pr.2
          | none => sdt
        else sdt
      { data with end_ := some { end_data with dateTime := some newVal } }
    | none =>
      match st.date with
      | some sd => { data with end_ := some { end_data with date := some sd } }
      | none => data

/-- `validate_and_complete_event(event_data)` with the current local time
passed explicitly.  An absent or empty input dict is `none` or
`some EventJson.empty`. -/
def validate_and_complete_event (now : PyDateTime) (event_data : Option EventJson) :
    Bool × Option EventJson × String :=
  let data := event_data.getD EventJson.empty
  if data = EventJson.empty then (false, none, "Event data is empty")
  else (true, some (complete_end (complete_start now (complete_summary now data))), "")

/-! ## Connection pool and event store (db_utils/db_manager.py)

The psycopg2 `SimpleConnectionPool(1, 10, ...)` is modelled by explicit
free/used lists; `getconn` pops a free connection or creates a new one
while fewer than `maxconn` are outstanding, else reports `PoolError`
(`none`).  Every store operation follows the source's
`conn = get_connection() ... finally: return_connection(conn)` shape;
an `execFails` flag injects a failure of the SQL execution step. -/

structure ConnectionPool where
  minconn : Nat
  maxconn : Nat
  free : List Nat
  used : List Nat
  nextId : Nat
deriving DecidableEq, Repr

/-- `pool.SimpleConnectionPool(minconn, maxconn, db_url)`. -/
def SimpleConnectionPool (minconn maxconn : Nat) : ConnectionPool :=
  { minconn := minconn, maxconn := maxconn, free := List.range minconn,
    used := [], nextId := minconn }

/-- `initialize_db` builds the pool with bounds 1 and 10. -/
def initialize_db_pool : ConnectionPool := SimpleConnectionPool 1 10

/-- `get_connection()`: `none` models a raised `PoolError`. -/
def getconn (p : ConnectionPool) : Option (Nat × ConnectionPool) :=
  match p.free with
  | c :: rest => some (c, { p with free := rest, used := c :: p.used })
  | [] =>
    if p.used.length < p.maxconn then
      some (p.nextId, { p with used := p.nextId :: p.used, nextId := p.nextId + 1 })
    else none

/-- `return_connection(conn)`. -/
def putconn (c : Nat) (p : ConnectionPool) : ConnectionPool :=
  { p with free := c :: p.free, used := p.used.erase c }

/-- One row of the `calendar_events` table (id column kept separately). -/
structure DbRecord where
  summary : Option String
  location : Option String
  description : Option String
  start_dateTime : Option String
  start_timeZone : Option String
  end_dateTime : Option String
  end_timeZone : Option String
  attendees : Option (List Attendee)
  recurrence : Option (List String)
  reminders : Option String
  visibility : Option String
  colorId : Option String
  transparency : Option String
  status : Option String
deriving DecidableEq, Repr

/-- The `calendar_events` table: rows tagged with their SERIAL id. -/
structure DbState where
  rows : List (Nat × DbRecord)
  nextId : Nat
deriving DecidableEq, Repr

/-- `save_calendar_event(...)`: insert one row, returning the generated
id, or `none` on failure; the acquired connection is always returned. -/
def save_calendar_event (execFails : Bool) (r : DbRecord)
    (p : ConnectionPool) (db : DbState) : Option Nat × ConnectionPool × DbState :=
  match getconn p with
  | none => (none, p, db)
  | some (c, p1) =>
    if execFails then (none, putconn c p1, db)
    else (some db.nextId, putconn c p1,
          { rows := db.rows ++ [(db.nextId, r)], nextId := db.nextId + 1 })

/-- `WHERE start_dateTime >= start AND start_dateTime <= end` on a TEXT
column; SQL NULL never satisfies the comparison. -/
def rowInRange (start_date end_date : String) (r : DbRecord) : Bool :=
  match r.start_dateTime with
  | some v => decide (start_date ≤ v) && decide (v ≤ end_date)
  | none => false

/-- `ORDER BY start_dateTime ASC`. -/
def orderByStart (rows : List (Nat × DbRecord)) : List (Nat × DbRecord) :=
  rows.mergeSort (fun a b =>
    decide ((a.2.start_dateTime.getD "") ≤ (b.2.start_dateTime.getD "")))

/-- `get_events_by_date_range(start_date, end_date, limit)`. -/
def get_events_by_date_range (execFails : Bool) (start_date end_date : String)
    (limit : Nat) (p : ConnectionPool) (db : DbState) :
    List (Nat × DbRecord) × ConnectionPool :=
  match getconn p with
  | none => ([], p)
  | some (c, p1) =>
    if execFails then ([], putconn c p1)
    else ((orderByStart (db.rows.filter (fun r => rowInRange start_date end_date r.2))).take limit,
          putconn c p1)

/-- The mutable `db_utils_config.json` record. -/
structure DbUtilsConfig where
  calender_date_interval : List String
  query_limit : Nat
deriving DecidableEq, Repr

/-- `get_calendar_events_by_config_interval()`: interval and limit from
the config record, bare `YYYY-MM-DD` dates expanded to full-day bounds. -/
def get_calendar_events_by_config_interval (execFails : Bool) (today : String)
    (cfg : DbUtilsConfig) (p : ConnectionPool) (db : DbState) :
    List (Nat × DbRecord) × ConnectionPool :=
  let (start_date, end_date) :=
    match cfg.calender_date_interval with
    | a :: b :: _ => (a, b)
    | _ => (today, today)
  let start_date := if start_date.length == 10 then start_date ++ "T00:00:00" else start_date
  let end_date := if end_date.length == 10 then end_date ++ "T23:59:59" else end_date
  match getconn p with
  | none => ([], p)
  | some (c, p1) =>
    if execFails then ([], putconn c p1)
    else ((orderByStart (db.rows.filter (fun r => rowInRange start_date end_date r.2))).take cfg.query_limit,
          putconn c p1)

/-- `update_calendar_event(event_id, **kwargs)`; `upd = none` models an
empty kwargs dict (early `return False`, still inside the `finally`). -/
def update_calendar_event (execFails : Bool) (event_id : Nat)
    (upd : Option (DbRecord → DbRecord)) (p : ConnectionPool) (db : DbState) :
    Bool × ConnectionPool × DbState :=
  match getconn p with
  | none => (false, p, db)
  | some (c, p1) =>
    match upd with
    | none => (false, putconn c p1, db)
    | some f =>
      if execFails then (false, putconn c p1, db)
      else
        (db.rows.any (fun r => r.1 == event_id), putconn c p1,
         { db with rows := db.rows.map (fun r => if r.1 == event_id then (r.1, f r.2) else r) })

/-- `delete_calendar_event(event_id)`. -/
def delete_calendar_event (execFails : Bool) (event_id : Nat)
    (p : ConnectionPool) (db : DbState) : Bool × ConnectionPool × DbState :=
  match getconn p with
  | none => (false, p, db)
  | some (c, p1) =>
    if execFails then (false, putconn c p1, db)
    else
      (db.rows.any (fun r => r.1 == event_id), putconn c p1,
       { db with rows := db.rows.filter (fun r => !(r.1 == event_id)) })

/-! ## Database save, parse stage
(agent_parse_entry_for_calender.py, lines 557-632)

`save_to_database` extracts the row fields from the parsed event with
truthiness-based fallbacks (`start.get('dateTime') or start.get('date')`)
and uses the start value for a missing end. -/

def save_to_database (execFails : Bool) (ev : EventJson)
    (p : ConnectionPool) (db : DbState) : Option Nat × ConnectionPool × DbState :=
  if !truthyS ev.summary then (none, p, db)
  else
    let start_data := ev.start.getD EventTime.empty
    let start_datetime := pyOrS start_data.dateTime start_data.date
    if !truthyS start_datetime then (none, p, db)
    else
      let start_timezone := start_data.timeZone
      let end_data := ev.end_.getD EventTime.empty
      let end_datetime := pyOrS end_data.dateTime end_data.date
      let end_timezone := end_data.timeZone
      let end_pr :=
        if !truthyS end_datetime then (start_datetime, start_timezone)
        else (end_datetime, end_timezone)
      save_calendar_event execFails
        ⟨ev.summary, ev.location, ev.description, start_datetime, start_timezone,
         end_pr.1, end_pr.2, ev.attendees, ev.recurrence, ev.reminders,
         ev.visibility, ev.colorId, ev.transparency, ev.status⟩ p db

/-! ## Database save, calendar-insertion stage
(app_calender_scheduler.py, lines 352-405)

After a successful calendar insert, the scheduler re-extracts the row
fields, this time by key presence (`'dateTime' in event['start']`),
preferring `dateTime` even when empty. -/

def extract_db_fields_scheduler (ev : EventJson) : DbRecord :=
  let (start_datetime, start_timezone) :=
    match ev.start with
    | some st => (if st.dateTime.isSome then st.dateTime else st.date, st.timeZone)
    | none => (none, none)
  let (end_datetime, end_timezone) :=
    match ev.end_ with
    | some e => (if e.dateTime.isSome then e.dateTime else e.date, e.timeZone)
    | none => (none, none)
  ⟨ev.summary, ev.location, ev.description, start_datetime, start_timezone,
   end_datetime, end_timezone, ev.attendees, ev.recurrence, ev.reminders,
   ev.visibility, ev.colorId, ev.transparency, ev.status⟩

/-! ## Scheduler per-file event loop
(app_calender_scheduler.py, lines 224-433, list branch)

Validation uses the default configured field lists
`required_fields = [summary, start]` and
`start_fields = end_fields = [dateTime, date]`.  The calendar service is
an oracle mapping the event position and final payload to an insertion
result.  A file is archived exactly when at least one of its events was
inserted successfully and archiving is enabled. -/

structure SchedulerConfig where
  archive_processed_files : Bool
  default_event_duration_hours : Nat
  add_end_time_if_missing : Bool
deriving DecidableEq, Repr

inductive EventOutcome where
  | inserted
  | missingRequired
  | missingStart
  | insertFailed
  | raisedEvent
deriving DecidableEq, Repr

/-- Processing of one event of a file: validation, end-time completion,
attendee repair, then the calendar insert.  Returns the outcome and, on
success, the final payload that was inserted. -/
def process_single_event (cfg : SchedulerConfig) (insert_ok : EventJson → Bool)
    (ev : EventJson) : EventOutcome × Option EventJson :=
  if !truthyS ev.summary || !truthyTime ev.start then (.missingRequired, none)
  else
    let has_valid_start :=
      match ev.start with
      | some st => truthyS st.dateTime || truthyS st.date
      | none => false
    if !has_valid_start then (.missingStart, none)
    else
      match (if cfg.add_end_time_if_missing
             then fill_end cfg.default_event_duration_hours ev
             else some ev) with
      | none => (.raisedEvent, none)
      | some ev2 =>
        let ev3 := { ev2 with attendees := ev2.attendees.map fix_attendees }
        if insert_ok ev3 then (.inserted, some ev3) else (.insertFailed, none)

/-- The `for event in event_data` loop: success and error counters and
the per-event outcomes, events numbered from `i`. -/
def process_events_from (cfg : SchedulerConfig) (insert_ok : Nat → EventJson → Bool)
    (i : Nat) : List EventJson → Nat × Nat × List EventOutcome
  | [] => (0, 0, [])
  | ev :: rest =>
    let out := (process_single_event cfg (insert_ok i) ev).1
    let r := process_events_from cfg insert_ok (i + 1) rest
    match out with
    | .inserted => (r.1 + 1, r.2.1, out :: r.2.2)
    | _ => (r.1, r.2.1 + 1, out :: r.2.2)

structure FileResult where
  success_count : Nat
  error_count : Nat
  file_success_count : Nat
  outcomes : List EventOutcome
  archived : Bool
deriving DecidableEq, Repr

/-- Whole-file processing for a JSON file holding a list of events,
including the final archive decision
`if file_success_count > 0 and archive_processed_files`. -/
def process_calendar_event_file (cfg : SchedulerConfig)
    (insert_ok : Nat → EventJson → Bool) (events : List EventJson) : FileResult :=
  let r := process_events_from cfg insert_ok 0 events
  { success_count := r.1, error_count := r.2.1, file_success_count := r.1,
    outcomes := r.2.2,
    archived := cfg.archive_processed_files && decide (0 < r.1) }

/-! ## JSON extraction
(agent_parse_entry_for_calender.py, lines 486-529)

`extract_json_from_text` tries `json.loads` on the whole text, then on
each markdown-fenced block, then on the greedy outermost curly-brace
substring.  The extractor is parameterized by the parse function;
`json_loads` below is an executable model of Python's `json.loads`
restricted to integer numbers and simple string escapes, failing
(`none`) outside that fragment. -/

inductive Json where
  | null
  | bool (b : Bool)
  | num (n : Int)
  | str (s : String)
  | arr (elems : List Json)
  | obj (members : List (String × Json))

def openBrace : Char := Char.ofNat 123
def closeBrace : Char := Char.ofNat 125
def backquote : Char := Char.ofNat 96

/-- JSON inter-token whitespace accepted by `json.loads`. -/
def jsonWsChar (c : Char) : Bool :=
  c == ' ' || c == '\t' || c == '\n' || c == '\r'

def skipWs (l : List Char) : List Char := l.dropWhile jsonWsChar

/-- Body of a JSON string after the opening quote; handles the one-character
escapes, refusing `\u` sequences (model restriction). -/
def parseStringBody : List Char → Option (List Char × List Char)
  | [] => none
  | c :: rest =>
    if c == '"' then some ([], rest)
    else if c == '\\' then
      match rest with
      | [] => none
      | e :: rest2 =>
        let dec : Option Char :=
          if e == '"' then some '"'
          else if e == '\\' then some '\\'
          else if e == '/' then some '/'
          else if e == 'n' then some '\n'
          else if e == 't' then some '\t'
          else if e == 'r' then some '\r'
          else if e == 'b' then some (Char.ofNat 8)
          else if e == 'f' then some (Char.ofNat 12)
          else none
        match dec, parseStringBody rest2 with
        | some d, some (cs, rem) => some (d :: cs, rem)
        | _, _ => none
    else
      match parseStringBody rest with
      | some (cs, rem) => some (c :: cs, rem)
      | none => none

/-- Integer digits per the JSON grammar: `0` stops immediately, a nonzero
first digit takes the maximal digit run. -/
def parseIntDigits : List Char → Option (Nat × List Char)
  | [] => none
  | c :: rest =>
    if c == '0' then some (0, rest)
    else if c.isDigit then
      some ((c :: rest.takeWhile Char.isDigit).foldl (fun n ch => n * 10 + (ch.toNat - 48)) 0,
            rest.dropWhile Char.isDigit)
    else none

/-- A following `.`/`e`/`E` marks a float literal, outside the model. -/
def floatFollows : List Char → Bool
  | [] => false
  | c :: _ => c == '.' || c == 'e' || c == 'E'

def parseNumber (l : List Char) : Option (Json × List Char) :=
  match l with
  | '-' :: rest =>
    match parseIntDigits rest with
    | some (n, rem) => if floatFollows rem then none else some (.num (-(n : Int)), rem)
    | none => none
  | _ =>
    match parseIntDigits l with
    | some (n, rem) => if floatFollows rem then none else some (.num (n : Int), rem)
    | none => none

mutual

def parseValue : Nat → List Char → Option (Json × List Char)
  | 0, _ => none
  | fuel + 1, l =>
    match skipWs l with
    | [] => none
    | c :: rest =>
      if c == '"' then
        match parseStringBody rest with
        | some (cs, rem) => some (.str cs.asString, rem)
        | none => none
      else if c == openBrace then parseObjMembers fuel rest true
      else if c == '[' then parseArrElems fuel rest true
      else if subAt ['n', 'u', 'l', 'l'] (c :: rest) then some (.null, (c :: rest).drop 4)
      else if subAt ['t', 'r', 'u', 'e'] (c :: rest) then some (.bool true, (c :: rest).drop 4)
      else if subAt ['f', 'a', 'l', 's', 'e'] (c :: rest) then some (.bool false, (c :: rest).drop 5)
      else parseNumber (c :: rest)

def parseArrElems : Nat → List Char → Bool → Option (Json × List Char)
  | 0, _, _ => none
  | fuel + 1, l, isFirst =>
    match skipWs l with
    | [] => none
    | c :: rest =>
      if c == ']' && isFirst then some (.arr [], rest)
      else
        match parseValue fuel (c :: rest) with
        | none => none
        | some (v, rem) =>
          match skipWs rem with
          | ',' :: rem2 =>
            match parseArrElems fuel rem2 false with
            | some (.arr vs, rem3) => some (.arr (v :: vs), rem3)
            | _ => none
          | ']' :: rem2 => some (.arr [v], rem2)
          | _ => none

def parseObjMembers : Nat → List Char → Bool → Option (Json × List Char)
  | 0, _, _ => none
  | fuel + 1, l, isFirst =>
    match skipWs l with
    | [] => none
    | c :: rest =>
      if c == closeBrace && isFirst then some (.obj [], rest)
      else if c == '"' then
        match parseStringBody rest with
        | none => none
        | some (k, rem) =>
          match skipWs rem with
          | ':' :: rem2 =>
            match parseValue fuel rem2 with
            | none => none
            | some (v, rem3) =>
              match skipWs rem3 with
              | ',' :: rem4 =>
                match parseObjMembers fuel rem4 false with
                | some (.obj ms, rem5) => some (.obj ((k.asString, v) :: ms), rem5)
                | _ => none
              | d :: rem4 => if d == closeBrace then some (.obj [(k.asString, v)], rem4) else none
              | [] => none
          | _ => none
      else none

end

/-- Model of `json.loads`: a single JSON value with nothing but
whitespace after it. -/
def json_loads (s : String) : Option Json :=
  match parseValue (2 * s.length + 2) s.data with
  | some (j, rest) => if skipWs rest = [] then some j else none
  | none => none

def fenceChars : List Char := [backquote, backquote, backquote]

/-- The optional `json` tag directly after an opening fence. -/
def dropJsonTag (l : List Char) : List Char :=
  if subAt ['j', 's', 'o', 'n'] l then l.drop 4 else l

/-- All fenced code blocks in document order:
`re.findall(r'<fence>(?:json)?\s*([\s\S]*?)\s*<fence>', text)`. -/
def fenced_blocks_aux : Nat → List Char → List (List Char)
  | 0, _ => []
  | fuel + 1, l =>
    match splitAtSub fenceChars l with
    | none => []
    | some (_, rest1) =>
      match splitAtSub fenceChars (dropJsonTag rest1) with
      | none => []
      | some (content, rest2) => trimRe content :: fenced_blocks_aux fuel rest2

def fenced_blocks (text : String) : List String :=
  (fenced_blocks_aux text.length text.data).map List.asString

/-- Index of the first element satisfying `p`. -/
def charIdxFrom (p : Char → Bool) : List Char → Option Nat
  | [] => none
  | c :: rest => if p c then some 0 else (charIdxFrom p rest).map (· + 1)

/-- The greedy outermost curly-brace substring:
`re.search(r'({[\s\S]*})', text)`, i.e. from the first opening brace that
has a closing brace after it, up to the last closing brace. -/
def curly_brace_substring (text : String) : Option String :=
  let l := text.data
  match charIdxFrom (fun c => c == closeBrace) l.reverse with
  | none => none
  | some r =>
    let upto := l.take (l.length - r)
    match charIdxFrom (fun c => c == openBrace) upto with
    | none => none
    | some i => some ((upto.drop i).asString)

/-- First block whose contents parse, in order. -/
def first_parseable (parse : String → Option Json) : List String → Option Json
  | [] => none
  | b :: rest =>
    match parse b with
    | some j => some j
    | none => first_parseable parse rest

/-- `extract_json_from_text(text)`: whole text, then fenced blocks in
order, then the greedy brace substring; `none` models returning `None`
after logging the extraction error. -/
def extract_json_from_text (parse : String → Option Json) (text : String) : Option Json :=
  match parse text with
  | some j => some j
  | none =>
    match first_parseable parse (fenced_blocks text) with
    | some j => some j
    | none =>
      match curly_brace_substring text with
      | some s => parse s
      | none => none

/-! ## Session lifecycle
(agent_parse_entry_for_calender.py, lines 189-414)

`process_with_openai_assistant` manages the stored assistant and thread
identifiers, self-healing on "not found" errors by clearing the stored
id and recursing.  The remote service is an oracle indexed by the number
of API calls made so far; the persisted `openai_config.json` is the
`SessionConfig` threaded through; the returned trace records every
remote call, so retries are observable.  Run-status polling is abstracted
to the terminal status it reaches.  Fuel `0` models a computation that is
still recursing (`diverges`). -/

inductive ApiResult (α : Type) where
  | ok (a : α)
  | err (msg : String)
deriving DecidableEq, Repr

structure Oracle where
  assistants_create : Nat → ApiResult String
  assistants_retrieve : Nat → String → ApiResult Unit
  threads_retrieve : Nat → String → ApiResult Nat
  threads_create : Nat → ApiResult String
  messages_create : Nat → String → ApiResult Unit
  runs_create : Nat → String → String → ApiResult Unit
  run_final_status : Nat → String
  messages_list : Nat → ApiResult (List (String × String))

/-- The persisted session state inside `openai_config.json`:
`assistant_id`, `thread_id`, `thread_created_at` (modelled in days) and
the retention period. -/
structure SessionConfig where
  assistant_id : Option String
  thread_id : Option String
  thread_created_at : Option Nat
  thread_retention_days : Nat
deriving DecidableEq, Repr

inductive ApiCall where
  | createAssistant
  | retrieveAssistant (id : String)
  | createThread
  | retrieveThread (id : String)
  | createMessage
  | createRun
  | listMessages
deriving DecidableEq, Repr

inductive SessionOutcome where
  | ok (response : String)
  | sessionError (msg : String)
  | diverges
deriving DecidableEq, Repr

/-- The wrapper applied by the error handlers:
`ValueError(f"Error processing with OpenAI Assistant: {e}")`. -/
def wrapErr (m : String) : String := "Error processing with OpenAI Assistant: " ++ m

/-- An error returned by a recursive self-heal call is re-wrapped by the
enclosing frame's outer handler. -/
def rewrap : SessionOutcome → SessionOutcome
  | .sessionError m => .sessionError (wrapErr m)
  | r => r

/-- Thread rotation check and creation, message append, run creation and
polling, and response selection.  A "No assistant found" error while
running triggers the second self-heal recursion, taken through the
continuation `recur` (the top of the call with one unit of fuel spent). -/
def session_after_assistant (o : Oracle) (now : Nat)
    (recur : SessionConfig → List ApiCall → SessionOutcome × SessionConfig × List ApiCall)
    (cfg : SessionConfig) (trace : List ApiCall) (aid : String) :
    SessionOutcome × SessionConfig × List ApiCall :=
  let tphase : SessionConfig × Bool × List ApiCall :=
    match cfg.thread_id with
    | none => (cfg, false, trace)
    | some tid =>
      match o.threads_retrieve trace.length tid with
      | .ok created_at =>
        let days_since_creation := now - created_at
        if cfg.thread_retention_days < days_since_creation then
          (cfg, true, trace ++ [.retrieveThread tid])
        else (cfg, false, trace ++ [.retrieveThread tid])
      | .err m =>
        if strContains m "No thread found" then
          ({ cfg with thread_id := none, thread_created_at := none }, true,
           trace ++ [.retrieveThread tid])
        else (cfg, true, trace ++ [.retrieveThread tid])
  let cfg2 := tphase.1
  let rotation := tphase.2.1
  let trace2 := tphase.2.2
  match (if cfg.thread_id.isNone || rotation then
          match o.threads_create trace2.length with
          | .ok tid =>
            Except.ok ({ cfg2 with thread_id := some tid, thread_created_at := some now },
                       trace2 ++ [.createThread], tid)
          | .err m =>
            Except.error ((.sessionError (wrapErr m) : SessionOutcome), cfg2,
                          trace2 ++ [.createThread])
         else Except.ok (cfg2, trace2, cfg2.thread_id.getD "")) with
  | .error r => r
  | .ok (cfg3, trace3, tid) =>
    match o.messages_create trace3.length tid with
    | .err m => (.sessionError (wrapErr m), cfg3, trace3 ++ [.createMessage])
    | .ok _ =>
      let trace4 := trace3 ++ [.createMessage]
      match o.runs_create trace4.length tid aid with
      | .err m =>
        if strContains m "No assistant found" then
          let r := recur { cfg3 with assistant_id := none } (trace4 ++ [.createRun])
          (rewrap r.1, r.2.1, r.2.2)
        else (.sessionError (wrapErr (wrapErr m)), cfg3, trace4 ++ [.createRun])
      | .ok _ =>
        let trace5 := trace4 ++ [.createRun]
        let status := o.run_final_status trace5.length
        if status != "completed" then
          (.sessionError (wrapErr (wrapErr ("Assistant run failed with status: " ++ status))),
           cfg3, trace5)
        else
          match o.messages_list trace5.length with
          | .err m =>
            if strContains m "No assistant found" then
              let r := recur { cfg3 with assistant_id := none } (trace5 ++ [.listMessages])
              (rewrap r.1, r.2.1, r.2.2)
            else (.sessionError (wrapErr (wrapErr m)), cfg3, trace5 ++ [.listMessages])
          | .ok msgs =>
            match msgs.find? (fun p => p.1 == "assistant") with
            | some p => (.ok p.2, cfg3, trace5 ++ [.listMessages])
            | none =>
              (.sessionError (wrapErr (wrapErr "No assistant response found in the thread")),
               cfg3, trace5 ++ [.listMessages])

/-- One pass of `process_with_openai_assistant`: resolve the assistant id
(create it, or verify the stored one, clearing it and restarting through
`recur` on a "No assistant found" error), then run the thread phase. -/
def process_step (o : Oracle) (now : Nat)
    (recur : SessionConfig → List ApiCall → SessionOutcome × SessionConfig × List ApiCall)
    (cfg : SessionConfig) (trace : List ApiCall) :
    SessionOutcome × SessionConfig × List ApiCall :=
  match cfg.assistant_id with
  | none =>
    match o.assistants_create trace.length with
    | .err m => (.sessionError (wrapErr m), cfg, trace ++ [.createAssistant])
    | .ok aid =>
      session_after_assistant o now recur { cfg with assistant_id := some aid }
        (trace ++ [.createAssistant]) aid
  | some aid =>
    match o.assistants_retrieve trace.length aid with
    | .ok _ => session_after_assistant o now recur cfg (trace ++ [.retrieveAssistant aid]) aid
    | .err m =>
      if strContains m "No assistant found" then
        let r := recur { cfg with assistant_id := none } (trace ++ [.retrieveAssistant aid])
        (rewrap r.1, r.2.1, r.2.2)
      else (.sessionError (wrapErr m), cfg, trace ++ [.retrieveAssistant aid])

/-- `process_with_openai_assistant`, fuelled: each self-heal restart
spends one unit of fuel; fuel `0` stands for a computation that is still
recursing. -/
def process_with_openai_assistant (o : Oracle) (now : Nat) :
    Nat → SessionConfig → List ApiCall → SessionOutcome × SessionConfig × List ApiCall
  | 0, cfg, trace => (.diverges, cfg, trace)
  | fuel + 1, cfg, trace =>
    process_step o now
      (fun cfg2 trace2 => process_with_openai_assistant o now fuel cfg2 trace2) cfg trace

/-! # Theorems -/

/-! ## Helper lemmas -/

theorem truthyS_isSome {x : Option String} (h : truthyS x = true) : x.isSome := by
  cases x <;> simp_all [truthyS]

theorem fix_attendee_complete {i : Nat} {a : Attendee} (h : a.email.isSome) :
    fix_attendee i a = a := by
  unfold fix_attendee
  cases hae : a.email with
  | some v => rfl
  | none => rw [hae] at h; simp at h

theorem fix_attendees_from_complete (i : Nat) (l : List Attendee)
    (h : ∀ a ∈ l, a.email.isSome) : fix_attendees_from i l = l := by
  induction l generalizing i with
  | nil => rfl
  | cons a rest ih =>
    rw [fix_attendees_from, fix_attendee_complete (h a (by simp)),
      ih (i + 1) (fun x hx => h x (by simp [hx]))]

theorem fix_attendees_from_get? (i0 : Nat) (l : List Attendee) (j : Nat) :
    (fix_attendees_from i0 l).get? j = (l.get? j).map (fun a => fix_attendee (i0 + j) a) := by
  induction l generalizing i0 j with
  | nil => simp [fix_attendees_from]
  | cons a rest ih =>
    cases j with
    | zero => simp [fix_attendees_from]
    | succ k =>
      show (fix_attendee i0 a :: fix_attendees_from (i0 + 1) rest).get? (k + 1) = _
      rw [List.get?_cons_succ, ih (i0 + 1) k, List.get?_cons_succ]
      have harith : i0 + 1 + k = i0 + (k + 1) := by omega
      rw [harith]

theorem putconn_getconn_used {p p1 : ConnectionPool} {c : Nat}
    (h : getconn p = some (c, p1)) : (putconn c p1).used = p.used := by
  unfold getconn at h
  split at h
  · simp only [Option.some.injEq, Prod.mk.injEq] at h
    obtain ⟨rfl, rfl⟩ := h
    simp [putconn]
  · split at h
    · simp only [Option.some.injEq, Prod.mk.injEq] at h
      obtain ⟨rfl, rfl⟩ := h
      simp [putconn]
    · exact absurd h (by simp)

theorem getconn_free_cons {p : ConnectionPool} {c : Nat} {rest : List Nat}
    (h : p.free = c :: rest) :
    getconn p = some (c, { p with free := rest, used := c :: p.used }) ∧
    putconn c { p with free := rest, used := c :: p.used } = p := by
  constructor
  · unfold getconn; rw [h]
  · unfold putconn
    simp only [List.erase_cons_head]
    rw [← h]

/-! ## Claim C10 -/

/-- C10: the daily summary task's sleep computation targets the configured
wall-clock time on the current day when that time is still in the future,
and rolls the target to the next day when the current time has reached or
passed it (never a nonpositive sleep, never more than a day). -/
theorem daily_task_rolls_to_next_day (now : ClockTime) (hour minute : Nat)
    (hsec : now.sec < 86400) (hh : hour ≤ 23) (hm : minute ≤ 59) :
    (now.sec < hour * 3600 + minute * 60 →
      calculate_seconds_until_daily_task now hour minute =
        hour * 3600 + minute * 60 - now.sec) ∧
    (hour * 3600 + minute * 60 ≤ now.sec →
      calculate_seconds_until_daily_task now hour minute =
        86400 + (hour * 3600 + minute * 60) - now.sec) ∧
    0 < calculate_seconds_until_daily_task now hour minute ∧
    calculate_seconds_until_daily_task now hour minute ≤ 86400 := by
  unfold calculate_seconds_until_daily_task ClockTime.abs
  dsimp only
  split
  all_goals refine ⟨fun h1 => ?_, fun h2 => ?_, ?_, ?_⟩
  all_goals dsimp only at *
  all_goals omega

/-- Witness for C10 at the spec scenario: configured for 23:55, current
time 23:56:00, the computed sleep is 86340 seconds, landing at 23:55
tomorrow. -/
theorem daily_task_rolls_to_next_day_witness :
    calculate_seconds_until_daily_task ⟨0, 86160⟩ 23 55 = 86340 := by
  have h := (daily_task_rolls_to_next_day ⟨0, 86160⟩ 23 55 (by norm_num)
    (by norm_num) (by norm_num)).2.1 (by norm_num)
  rw [h]
  rfl

/-! ## Claim C7 -/

/-- C7: normalizing an attendee list whose every element has an `email`
key is a no-op; an attendee lacking `email` gets
`<sanitized displayName>@example.com` with `attendee<i+1>` standing in
for a missing display name, and `Jane Q. Doe` becomes
`jane.q.doe@example.com`. -/
theorem attendee_email_synthesis (l : List Attendee) :
    ((∀ a ∈ l, a.email.isSome) → fix_attendees l = l) ∧
    (∀ i a, l.get? i = some a → a.email = none →
      (fix_attendees l).get? i = some { a with
        email := some (sanitize_display_name
          (a.displayName.getD ("attendee" ++ toString (i + 1))) ++ "@example.com") }) ∧
    fix_attendees [{ email := none, displayName := some "Jane Q. Doe" }] =
      [{ email := some "jane.q.doe@example.com", displayName := some "Jane Q. Doe" }] := by
  refine ⟨fun h => fix_attendees_from_complete 0 l h, fun i a hi hae => ?_, by rfl⟩
  rw [fix_attendees, fix_attendees_from_get?, hi]
  simp [fix_attendee, hae]

/-- Witness for C7: a complete singleton list is unchanged; a fully
anonymous attendee at index 0 gets the synthesized address
`attendee1@example.com`. -/
theorem attendee_email_synthesis_witness :
    fix_attendees [{ email := some "x@y.z", displayName := some "X" }] =
      [{ email := some "x@y.z", displayName := some "X" }] ∧
    (fix_attendees [{ email := none, displayName := none }]).get? 0 =
      some { email := some "attendee1@example.com", displayName := none } := by
  constructor
  · exact (attendee_email_synthesis _).1 (by intro a ha; simp at ha; subst ha; rfl)
  · exact (attendee_email_synthesis [{ email := none, displayName := none }]).2.1 0
      { email := none, displayName := none } rfl rfl

/-! ## Claim C9 -/

/-- C9: the pool is created with bounds (min 1, max 10), and every store
operation — save, range query, configured-interval query, update,
delete — returns its acquired connection on every path, including when
the SQL execution step fails, so the set of checked-out connections is
unchanged by any operation; when a free connection was available the
pool is restored exactly. -/
theorem store_operations_release_connections (fail : Bool) (p : ConnectionPool)
    (db : DbState) (r : DbRecord) (sd ed today : String) (lim eid : Nat)
    (cfg : DbUtilsConfig) (upd : Option (DbRecord → DbRecord)) :
    initialize_db_pool.minconn = 1 ∧ initialize_db_pool.maxconn = 10 ∧
    ((save_calendar_event fail r p db).2.1).used = p.used ∧
    ((get_events_by_date_range fail sd ed lim p db).2).used = p.used ∧
    ((get_calendar_events_by_config_interval fail today cfg p db).2).used = p.used ∧
    ((update_calendar_event fail eid upd p db).2.1).used = p.used ∧
    ((delete_calendar_event fail eid p db).2.1).used = p.used ∧
    (∀ c rest, p.free = c :: rest →
      (save_calendar_event fail r p db).2.1 = p ∧
      (get_events_by_date_range fail sd ed lim p db).2 = p ∧
      (get_calendar_events_by_config_interval fail today cfg p db).2 = p ∧
      (update_calendar_event fail eid upd p db).2.1 = p ∧
      (delete_calendar_event fail eid p db).2.1 = p) := by
  refine ⟨rfl, rfl, ?_, ?_, ?_, ?_, ?_, ?_⟩
  case _ =>
    unfold save_calendar_event
    split
    · rfl
    · rename_i c p1 hg
      have h := putconn_getconn_used hg
      split <;> exact h
  case _ =>
    unfold get_events_by_date_range
    split
    · rfl
    · rename_i c p1 hg
      have h := putconn_getconn_used hg
      split <;> exact h
  case _ =>
    unfold get_calendar_events_by_config_interval
    dsimp only
    split
    · rfl
    · rename_i c p1 hg
      have h := putconn_getconn_used hg
      split <;> exact h
  case _ =>
    unfold update_calendar_event
    split
    · rfl
    · rename_i c p1 hg
      have h := putconn_getconn_used hg
      repeat' split
      all_goals exact h
  case _ =>
    unfold delete_calendar_event
    split
    · rfl
    · rename_i c p1 hg
      have h := putconn_getconn_used hg
      split <;> exact h
  case _ =>
    intro c rest hfree
    obtain ⟨hget, hput⟩ := getconn_free_cons hfree
    refine ⟨?_, ?_, ?_, ?_, ?_⟩
    · unfold save_calendar_event
      rw [hget]
      dsimp only
      split <;> exact hput
    · unfold get_events_by_date_range
      rw [hget]
      dsimp only
      split <;> exact hput
    · unfold get_calendar_events_by_config_interval
      dsimp only
      rw [hget]
      dsimp only
      split <;> exact hput
    · unfold update_calendar_event
      rw [hget]
      dsimp only
      repeat' split
      all_goals exact hput
    · unfold delete_calendar_event
      rw [hget]
      dsimp only
      split <;> exact hput

/-! ## Claim C2 -/

theorem parse_start_dt_validB {s : String} {d : PyDateTime}
    (h : parse_start_dt s = some d) : d.validB = true := by
  unfold parse_start_dt at h
  split at h <;> exact pyFromIso_validB h

/-- C2 counterexample: on the string-level fallback path the hour is
incremented modulo 24 without rolling the date: a start of 23:99 (the
minute 99 makes datetime parsing fail) yields a synthesized end of 00:99
on the same date, which is before the start, not strictly after it. -/
theorem end_time_fallback_wraps_before_start :
    add_end_time_from_start 1 "2024-01-01T23:99:00" =
      .set "2024-01-01T00:99:00" ∧
    ("2024-01-01T00:99:00".data < "2024-01-01T23:99:00".data) := by
  exact ⟨by decide, by decide⟩

/-- C2 amended: for an event missing both end fields, when the
timezone-stripped `start.dateTime` parses the synthesized end is start
plus the configured duration with the same suffix reattached, strictly
after the start; the all-day path copies `start.date` to `end.date`
unchanged (equal); but on the string-level fallback path the hour wraps
modulo 24 without a date rollover, so the end can precede the start. -/
theorem end_time_synthesis_after_start (dur : Nat) (hdur : 0 < dur)
    (start_dt : String) (d : PyDateTime)
    (hparse : parse_start_dt (split_tz_suffix start_dt).1 = some d)
    (ev : EventJson) (st : EventTime) (hEnd : ev.end_ = none)
    (hstart : ev.start = some st) (hsdt : st.dateTime = none)
    (ds : String) (hdate : st.date = some ds) :
    (add_end_time_from_start dur start_dt =
      .set ((d.addHours dur).isoformat ++ (split_tz_suffix start_dt).2) ∧
     d.rank < (d.addHours dur).rank) ∧
    fill_end dur ev = some { ev with end_ := some ⟨none, some ds, none⟩ } := by
  refine ⟨⟨?_, addHours_rank_lt (parse_start_dt_validB hparse) hdur⟩, ?_⟩
  · unfold add_end_time_from_start
    dsimp only
    rw [hparse]
  · unfold fill_end
    rw [hEnd, hstart]
    dsimp only
    rw [hsdt, hdate]
    dsimp only [Option.isSome_none, Option.isSome_some, Option.getD_none]
    rfl

/-- Witness for C2: with the default one-hour duration, start
`2024-01-01T10:00:00+02:00` gets end `2024-01-01T11:00:00+02:00` (same
suffix, one hour later), and an all-day start `2024-05-05` is copied to
the end date unchanged. -/
theorem end_time_synthesis_after_start_witness :
    add_end_time_from_start 1 "2024-01-01T10:00:00+02:00" =
      .set "2024-01-01T11:00:00+02:00" ∧
    (⟨2024, 1, 1, 10, 0, 0⟩ : PyDateTime).rank <
      ((⟨2024, 1, 1, 10, 0, 0⟩ : PyDateTime).addHours 1).rank ∧
    fill_end 1 { EventJson.empty with start := some ⟨none, some "2024-05-05", none⟩ } =
      some { EventJson.empty with
              start := some ⟨none, some "2024-05-05", none⟩
              end_ := some ⟨none, some "2024-05-05", none⟩ } := by
  have h := end_time_synthesis_after_start 1 (by norm_num) "2024-01-01T10:00:00+02:00"
    ⟨2024, 1, 1, 10, 0, 0⟩ rfl
    { EventJson.empty with start := some ⟨none, some "2024-05-05", none⟩ }
    ⟨none, some "2024-05-05", none⟩ rfl rfl rfl "2024-05-05" rfl
  exact ⟨h.1.1, h.1.2, h.2⟩

/-! ## Claim C3 -/

theorem complete_summary_fields (now : PyDateTime) (d : EventJson) :
    (complete_summary now d).summary.isSome ∧
    (complete_summary now d).start = d.start ∧
    (complete_summary now d).end_ = d.end_ := by
  unfold complete_summary
  split
  · exact ⟨truthyS_isSome ‹_›, rfl, rfl⟩
  · split
    · exact ⟨rfl, rfl, rfl⟩
    · exact ⟨rfl, rfl, rfl⟩

theorem complete_start_fields (now : PyDateTime) (d : EventJson) :
    (∃ st, (complete_start now d).start = some st ∧
      (st.dateTime.isSome ∨ st.date.isSome)) ∧
    (complete_start now d).summary = d.summary ∧
    (complete_start now d).end_ = d.end_ := by
  unfold complete_start
  dsimp only
  split
  · rename_i h
    refine ⟨?_, rfl, rfl⟩
    cases hs : d.start with
    | none => rw [hs] at h; simp [EventTime.empty, pyOrS, truthyS] at h
    | some st =>
      rw [hs] at h
      simp only [Option.getD_some] at h
      refine ⟨st, rfl, ?_⟩
      unfold pyOrS at h
      split at h
      · exact Or.inl (truthyS_isSome ‹_›)
      · exact Or.inr (truthyS_isSome h)
  · exact ⟨⟨_, rfl, Or.inl rfl⟩, rfl, rfl⟩

theorem complete_end_fields (d : EventJson) :
    (complete_end d).end_.isSome ∧
    (complete_end d).summary = d.summary ∧
    (complete_end d).start = d.start := by
  unfold complete_end
  dsimp only
  split
  · rename_i h
    refine ⟨?_, rfl, rfl⟩
    cases he : d.end_ with
    | none => rw [he] at h; simp [EventTime.empty, pyOrS, truthyS] at h
    | some e => rfl
  · repeat' split
    all_goals exact ⟨rfl, rfl, rfl⟩

/-- C3 counterexample: the repair helper does fail on an empty raw event:
`validate_and_complete_event` of an empty input dict returns
`is_valid = False` with no event at all, refuting "normalization never
fails, always returns a best-effort Event, including empty or field-less
inputs". -/
theorem validate_empty_event_fails :
    validate_and_complete_event ⟨2025, 1, 1, 12, 0, 0⟩ (some EventJson.empty) =
      (false, none, "Event data is empty") := rfl

/-- C3 amended: for every nonempty raw event, normalization succeeds
without raising: it returns `(True, completed, "")` where the completed
event has a summary present, an end present, and a start present with a
`dateTime` or `date` value; the empty input dict instead yields
`(False, None, "Event data is empty")`. -/
theorem validate_nonempty_event_completes (now : PyDateTime) (ev : EventJson)
    (hne : ev ≠ EventJson.empty) :
    ∃ c, validate_and_complete_event now (some ev) = (true, some c, "") ∧
      c.summary.isSome ∧ c.end_.isSome ∧
      (∃ st, c.start = some st ∧ (st.dateTime.isSome ∨ st.date.isSome)) := by
  unfold validate_and_complete_event
  simp only [Option.getD_some]
  rw [if_neg hne]
  refine ⟨_, rfl, ?_, ?_, ?_⟩
  · rw [(complete_end_fields _).2.1, (complete_start_fields now _).2.1]
    exact (complete_summary_fields now ev).1
  · exact (complete_end_fields _).1
  · rw [(complete_end_fields _).2.2]
    exact (complete_start_fields now _).1

/-- Witness for C3: a raw event holding only a summary normalizes
successfully with all three fields present. -/
theorem validate_nonempty_event_completes_witness :
    ∃ c, validate_and_complete_event ⟨2025, 1, 1, 9, 30, 0⟩
        (some { EventJson.empty with summary := some "meeting" }) = (true, some c, "") ∧
      c.summary.isSome ∧ c.end_.isSome ∧
      (∃ st, c.start = some st ∧ (st.dateTime.isSome ∨ st.date.isSome)) :=
  validate_nonempty_event_completes ⟨2025, 1, 1, 9, 30, 0⟩
    { EventJson.empty with summary := some "meeting" } (by simp [EventJson.empty])

/-! ## Claim C6 -/

theorem process_single_event_missing (cfg : SchedulerConfig)
    (insert_one : EventJson → Bool) (ev : EventJson)
    (h : (truthyS ev.summary && truthyTime ev.start) = false) :
    process_single_event cfg insert_one ev = (.missingRequired, none) := by
  unfold process_single_event
  have hc : (!truthyS ev.summary || !truthyTime ev.start) = true := by
    cases hts : truthyS ev.summary <;> cases htt : truthyTime ev.start <;> simp_all
  simp [hc]

theorem process_events_from_spec (cfg : SchedulerConfig)
    (insert_ok : Nat → EventJson → Bool) (i : Nat) (events : List EventJson) :
    (process_events_from cfg insert_ok i events).2.2.length = events.length ∧
    (process_events_from cfg insert_ok i events).1 =
      (process_events_from cfg insert_ok i events).2.2.count .inserted ∧
    (process_events_from cfg insert_ok i events).1 +
      (process_events_from cfg insert_ok i events).2.1 = events.length ∧
    (∀ j ev, events.get? j = some ev →
      (truthyS ev.summary && truthyTime ev.start) = false →
      (process_events_from cfg insert_ok i events).2.2.get? j =
        some EventOutcome.missingRequired) := by
  induction events generalizing i with
  | nil => exact ⟨rfl, rfl, rfl, fun j ev h => by simp at h⟩
  | cons ev rest ih =>
    obtain ⟨ih1, ih2, ih3, ih4⟩ := ih (i + 1)
    unfold process_events_from
    dsimp only
    cases houtcome : (process_single_event cfg (insert_ok i) ev).1 with
    | inserted =>
      refine ⟨by simp [ih1], by simp [List.count_cons, ih2],
        by simp only [List.length_cons]; omega, ?_⟩
      intro j e hj hmiss
      cases j with
      | zero =>
        simp only [List.get?, Option.some.injEq] at hj
        subst hj
        rw [process_single_event_missing cfg (insert_ok i) ev hmiss] at houtcome
        exact absurd houtcome (by simp)
      | succ k => exact ih4 k e hj hmiss
    | missingRequired =>
      refine ⟨by simp [ih1], by simp [List.count_cons, ih2],
        by simp only [List.length_cons]; omega, ?_⟩
      intro j e hj hmiss
      cases j with
      | zero => rfl
      | succ k => exact ih4 k e hj hmiss
    | missingStart =>
      refine ⟨by simp [ih1], by simp [List.count_cons, ih2],
        by simp only [List.length_cons]; omega, ?_⟩
      intro j e hj hmiss
      cases j with
      | zero =>
        simp only [List.get?, Option.some.injEq] at hj
        subst hj
        rw [process_single_event_missing cfg (insert_ok i) ev hmiss] at houtcome
        exact absurd houtcome (by simp)
      | succ k => exact ih4 k e hj hmiss
    | insertFailed =>
      refine ⟨by simp [ih1], by simp [List.count_cons, ih2],
        by simp only [List.length_cons]; omega, ?_⟩
      intro j e hj hmiss
      cases j with
      | zero =>
        simp only [List.get?, Option.some.injEq] at hj
        subst hj
        rw [process_single_event_missing cfg (insert_ok i) ev hmiss] at houtcome
        exact absurd houtcome (by simp)
      | succ k => exact ih4 k e hj hmiss
    | raisedEvent =>
      refine ⟨by simp [ih1], by simp [List.count_cons, ih2],
        by simp only [List.length_cons]; omega, ?_⟩
      intro j e hj hmiss
      cases j with
      | zero =>
        simp only [List.get?, Option.some.injEq] at hj
        subst hj
        rw [process_single_event_missing cfg (insert_ok i) ev hmiss] at houtcome
        exact absurd houtcome (by simp)
      | succ k => exact ih4 k e hj hmiss

/-- C6 counterexample: a file holding an invalid event (missing required
fields) next to an event that inserts successfully IS archived — the
source archives whenever at least one event of the file succeeded, so
the invalid event will not be retried next cycle. -/
theorem invalid_event_shared_file_archived :
    process_calendar_event_file ⟨true, 1, true⟩ (fun _ _ => true)
      [EventJson.empty,
       { EventJson.empty with
          summary := some "ok"
          start := some ⟨none, some "2025-01-02", none⟩
          end_ := some ⟨none, some "2025-01-02", none⟩ }] =
      { success_count := 1, error_count := 1, file_success_count := 1,
        outcomes := [.missingRequired, .inserted], archived := true } := by
  rfl

/-- C6 amended: an event still missing a required field after
normalization is counted as an error and never inserted — no retry
within the cycle — and the file is left unarchived exactly when no event
in it was inserted (or archiving is disabled); when the invalid event
shares the file with a successfully inserted one, the whole file IS
archived, so the invalid event is not retried next cycle either. -/
theorem invalid_event_error_and_archival (cfg : SchedulerConfig)
    (insert_ok : Nat → EventJson → Bool) (events : List EventJson) :
    ((process_calendar_event_file cfg insert_ok events).archived = true ↔
      (cfg.archive_processed_files = true ∧
       EventOutcome.inserted ∈ (process_calendar_event_file cfg insert_ok events).outcomes)) ∧
    (process_calendar_event_file cfg insert_ok events).success_count +
      (process_calendar_event_file cfg insert_ok events).error_count = events.length ∧
    (∀ j ev, events.get? j = some ev →
      (truthyS ev.summary && truthyTime ev.start) = false →
      (process_calendar_event_file cfg insert_ok events).outcomes.get? j =
        some EventOutcome.missingRequired) := by
  obtain ⟨h1, h2, h3, h4⟩ := process_events_from_spec cfg insert_ok 0 events
  unfold process_calendar_event_file
  dsimp only
  refine ⟨?_, h3, h4⟩
  rw [Bool.and_eq_true, decide_eq_true_eq, h2, List.count_pos_iff]

/-- Witness for C6: a file holding only an invalid (field-less) event
has it counted as the single error, marked missing-required, with no
insertion. -/
theorem invalid_event_error_and_archival_witness :
    (process_calendar_event_file ⟨true, 1, true⟩ (fun _ _ => false)
      [EventJson.empty]).outcomes.get? 0 = some EventOutcome.missingRequired ∧
    (process_calendar_event_file ⟨true, 1, true⟩ (fun _ _ => false)
      [EventJson.empty]).success_count +
      (process_calendar_event_file ⟨true, 1, true⟩ (fun _ _ => false)
        [EventJson.empty]).error_count = 1 := by
  have h := invalid_event_error_and_archival ⟨true, 1, true⟩ (fun _ _ => false) [EventJson.empty]
  exact ⟨h.2.2 0 EventJson.empty rfl (by decide), h.2.1⟩

/-! ## Claim C8 -/

/-- A parsed event carrying a summary and a start dateTime but no end,
as the parse stage may emit it. -/
def sample_event_no_end : EventJson :=
  { EventJson.empty with
      summary := some "meeting"
      start := some ⟨some "2025-01-01T10:00:00", none, none⟩ }

/-- C8 counterexample: an event with no end really is saved twice (ids 1
then 2), but the two rows do not carry the same event content: the parse
stage stores the start value as the end, while the calendar stage first
normalizes the end to start plus the default duration and stores that. -/
theorem double_save_records_differ :
    (save_to_database false sample_event_no_end initialize_db_pool ⟨[], 1⟩).1 = some 1 ∧
    ((save_to_database false sample_event_no_end initialize_db_pool ⟨[], 1⟩).2.2).rows.map
        (fun r => r.2.end_dateTime) = [some "2025-01-01T10:00:00"] ∧
    process_single_event ⟨true, 1, true⟩ (fun _ => true) sample_event_no_end =
      (.inserted, some { sample_event_no_end with
        end_ := some ⟨some "2025-01-01T11:00:00", none, none⟩ }) ∧
    (save_calendar_event false
      (extract_db_fields_scheduler { sample_event_no_end with
        end_ := some ⟨some "2025-01-01T11:00:00", none, none⟩ })
      (save_to_database false sample_event_no_end initialize_db_pool ⟨[], 1⟩).2.1
      (save_to_database false sample_event_no_end initialize_db_pool ⟨[], 1⟩).2.2).1 = some 2 ∧
    (extract_db_fields_scheduler { sample_event_no_end with
        end_ := some ⟨some "2025-01-01T11:00:00", none, none⟩ }).end_dateTime =
      some "2025-01-01T11:00:00" ∧
    ((some "2025-01-01T10:00:00" : Option String) ≠ some "2025-01-01T11:00:00") := by
  exact ⟨rfl, rfl, rfl, rfl, rfl, by decide⟩

/-- C8 amended: a successfully parsed then successfully inserted event is
saved to the store twice — once by the parse stage and once after the
calendar insert — producing two rows with distinct generated ids; when
the event reaches insertion with a truthy end dateTime and complete
attendee emails, the two rows carry identical content, but a missing end
is completed differently by each stage, so those rows differ in the end
field. -/
theorem double_save_two_records (ev : EventJson) (st en : EventTime)
    (db : DbState) (p : ConnectionPool) (c : Nat) (fr : List Nat)
    (cfg : SchedulerConfig) (insert_one : EventJson → Bool)
    (hsum : truthyS ev.summary = true)
    (hstart : ev.start = some st) (hsdt : truthyS st.dateTime = true)
    (hend : ev.end_ = some en) (hedt : truthyS en.dateTime = true)
    (hatt : ∀ a ∈ ev.attendees.getD [], a.email.isSome)
    (hins : insert_one ev = true)
    (hfree : p.free = c :: fr) :
    save_to_database false ev p db =
      (some db.nextId, p,
       ⟨db.rows ++ [(db.nextId, extract_db_fields_scheduler ev)], db.nextId + 1⟩) ∧
    process_single_event cfg insert_one ev = (.inserted, some ev) ∧
    save_calendar_event false (extract_db_fields_scheduler ev) p
      ⟨db.rows ++ [(db.nextId, extract_db_fields_scheduler ev)], db.nextId + 1⟩ =
      (some (db.nextId + 1), p,
       ⟨db.rows ++ [(db.nextId, extract_db_fields_scheduler ev),
                    (db.nextId + 1, extract_db_fields_scheduler ev)], db.nextId + 2⟩) ∧
    db.nextId ≠ db.nextId + 1 := by
  obtain ⟨hget, hput⟩ := getconn_free_cons hfree
  have hsdtSome : st.dateTime.isSome = true := truthyS_isSome hsdt
  have hedtSome : en.dateTime.isSome = true := truthyS_isSome hedt
  have hrec : extract_db_fields_scheduler ev =
      ⟨ev.summary, ev.location, ev.description, st.dateTime, st.timeZone,
       en.dateTime, en.timeZone, ev.attendees, ev.recurrence, ev.reminders,
       ev.visibility, ev.colorId, ev.transparency, ev.status⟩ := by
    unfold extract_db_fields_scheduler
    rw [hstart, hend]
    dsimp only
    rw [if_pos hsdtSome, if_pos hedtSome]
  have hsave : ∀ d : DbState, save_calendar_event false (extract_db_fields_scheduler ev) p d =
      (some d.nextId, p, ⟨d.rows ++ [(d.nextId, extract_db_fields_scheduler ev)], d.nextId + 1⟩) := by
    intro d
    unfold save_calendar_event
    rw [hget]
    dsimp only
    rw [if_neg (show ¬((false : Bool) = true) by simp)]
    rw [hput]
  refine ⟨?_, ?_, ?_, by omega⟩
  · unfold save_to_database
    rw [if_neg (show ¬((!truthyS ev.summary) = true) by rw [hsum]; simp)]
    rw [hstart, hend]
    simp only [Option.getD_some]
    have h1 : pyOrS st.dateTime st.date = st.dateTime := by unfold pyOrS; rw [if_pos hsdt]
    have h2 : pyOrS en.dateTime en.date = en.dateTime := by unfold pyOrS; rw [if_pos hedt]
    rw [h1, h2]
    rw [if_neg (show ¬((!truthyS st.dateTime) = true) by rw [hsdt]; simp)]
    rw [if_neg (show ¬((!truthyS en.dateTime) = true) by rw [hedt]; simp)]
    dsimp only
    rw [← hrec]
    exact hsave db
  · have hreq : (!truthyS ev.summary || !truthyTime ev.start) = false := by
      rw [hsum, hstart]
      simp [truthyTime, hsdtSome]
    have hfill : fill_end cfg.default_event_duration_hours ev = some ev := by
      unfold fill_end
      rw [hend]
      dsimp only
      rw [hedt]
      rfl
    have hnoop : (if cfg.add_end_time_if_missing then
        fill_end cfg.default_event_duration_hours ev else some ev) = some ev := by
      split
      · exact hfill
      · rfl
    have hattnoop : ev.attendees.map fix_attendees = ev.attendees := by
      cases hca : ev.attendees with
      | none => rfl
      | some l =>
        have hfx : fix_attendees_from 0 l = l :=
          fix_attendees_from_complete 0 l (by rw [hca] at hatt; simpa using hatt)
        simp [fix_attendees, hfx]
    unfold process_single_event
    rw [if_neg (show ¬((!truthyS ev.summary || !truthyTime ev.start) = true) by
      rw [hreq]; simp)]
    rw [hstart]
    dsimp only
    rw [if_neg (show ¬((!(truthyS st.dateTime || truthyS st.date)) = true) by
      rw [hsdt]; simp)]
    rw [hnoop]
    dsimp only
    rw [hattnoop]
    rw [show { ev with attendees := ev.attendees } = ev from rfl]
    rw [if_pos (show insert_one ev = true from hins)]
  · have := hsave ⟨db.rows ++ [(db.nextId, extract_db_fields_scheduler ev)], db.nextId + 1⟩
    simpa [List.append_assoc] using this

/-- Witness for C8: a complete event (end present, no attendees) is
stored twice with ids 1 and 2 and identical row content. -/
theorem double_save_two_records_witness :
    save_to_database false
      { EventJson.empty with
          summary := some "m"
          start := some ⟨some "2025-01-01T10:00:00", none, none⟩
          end_ := some ⟨some "2025-01-01T12:00:00", none, none⟩ }
      initialize_db_pool ⟨[], 1⟩ =
      (some 1, initialize_db_pool,
       ⟨[(1, extract_db_fields_scheduler
            { EventJson.empty with
                summary := some "m"
                start := some ⟨some "2025-01-01T10:00:00", none, none⟩
                end_ := some ⟨some "2025-01-01T12:00:00", none, none⟩ })], 2⟩) ∧
    (1 : Nat) ≠ 2 := by
  have h := double_save_two_records
    { EventJson.empty with
        summary := some "m"
        start := some ⟨some "2025-01-01T10:00:00", none, none⟩
        end_ := some ⟨some "2025-01-01T12:00:00", none, none⟩ }
    ⟨some "2025-01-01T10:00:00", none, none⟩ ⟨some "2025-01-01T12:00:00", none, none⟩
    ⟨[], 1⟩ initialize_db_pool 0 [] ⟨true, 1, true⟩ (fun _ => true)
    rfl rfl rfl rfl rfl (by intro a ha; simp [EventJson.empty] at ha) rfl rfl
  exact ⟨by simpa using h.1, by omega⟩

/-! ## Claim C1 -/

theorem first_parseable_eq_none (parse : String → Option Json) (bs : List String) :
    first_parseable parse bs = none ↔ ∀ b ∈ bs, parse b = none := by
  induction bs with
  | nil => simp [first_parseable]
  | cons b rest ih =>
    unfold first_parseable
    cases hb : parse b with
    | some j =>
      simp only [reduceCtorEq, false_iff, not_forall]
      exact ⟨b, by simp, by simp [hb]⟩
    | none => simp [hb, ih]

theorem charIdxFrom_eq_none {p : Char → Bool} {l : List Char}
    (h : ∀ c ∈ l, p c = false) : charIdxFrom p l = none := by
  induction l with
  | nil => rfl
  | cons a rest ih =>
    unfold charIdxFrom
    rw [if_neg (by rw [h a (by simp)]; simp),
      ih (fun c hc => h c (by simp [hc]))]
    rfl

theorem curly_none_of_no_brace {text : String} (h : openBrace ∉ text.data) :
    curly_brace_substring text = none := by
  unfold curly_brace_substring
  dsimp only
  cases hr : charIdxFrom (fun c => c == closeBrace) text.data.reverse with
  | none => rfl
  | some r =>
    dsimp only
    rw [charIdxFrom_eq_none (fun c hc => ?_)]
    have hmem : c ∈ text.data := List.take_subset _ _ hc
    have : ¬(c = openBrace) := fun he => h (he ▸ hmem)
    simpa using this

/-- C1 counterexample: the extractor succeeds on the input `5`, which
contains no curly-brace substring at all — `json.loads` accepts any JSON
value, not only objects, so the whole-text strategy returns the number —
refuting "it fails for every input with no curly-brace substring". -/
theorem extract_json_braceless_number_succeeds :
    extract_json_from_text json_loads "5" = some (Json.num 5) ∧
    openBrace ∉ "5".data := by
  exact ⟨rfl, by decide⟩

/-- C1 amended: the extractor tries the three strategies in order — whole
text, fenced blocks in order, greedy outermost brace substring — first
success wins, and it fails exactly when all three fail; an input with no
opening brace has no brace-substring candidate, so it fails unless the
whole text (or a fenced block) itself parses as a JSON value, which need
not be an object. -/
theorem extract_json_strategy_characterization (parse : String → Option Json)
    (text : String) :
    (extract_json_from_text parse text = none ↔
      (parse text = none ∧ (∀ b ∈ fenced_blocks text, parse b = none) ∧
       (∀ s, curly_brace_substring text = some s → parse s = none))) ∧
    (∀ j, parse text = some j → extract_json_from_text parse text = some j) ∧
    (openBrace ∉ text.data → curly_brace_substring text = none) := by
  refine ⟨?_, ?_, fun h => curly_none_of_no_brace h⟩
  · unfold extract_json_from_text
    cases hw : parse text with
    | some j => simp [hw]
    | none =>
      cases hf : first_parseable parse (fenced_blocks text) with
      | some j =>
        simp only [reduceCtorEq, false_iff, not_and]
        intro _ hblocks
        rw [(first_parseable_eq_none parse _).mpr hblocks] at hf
        cases hf
      | none =>
        have hblocks := (first_parseable_eq_none parse _).mp hf
        cases hc : curly_brace_substring text with
        | none =>
          simp [hw, hc]
          exact hblocks
        | some s =>
          simp only [hw, hc, true_and]
          constructor
          · intro hps
            exact ⟨hblocks, fun s2 hs2 => by cases hs2; exact hps⟩
          · intro hx
            exact hx.2 s rfl
  · intro j hj
    unfold extract_json_from_text
    rw [hj]

/-- Witness for C1 at a prose-only input: nothing parses on any of the
three strategies, so extraction fails. -/
theorem extract_json_strategy_witness :
    extract_json_from_text json_loads "no json here" = none := by
  refine ((extract_json_strategy_characterization json_loads "no json here").1).mpr
    ⟨rfl, ?_, ?_⟩
  · intro b hb
    rw [show fenced_blocks "no json here" = [] from rfl] at hb
    cases hb
  · intro s hs
    rw [show curly_brace_substring "no json here" = none from rfl] at hs
    cases hs

/-! ## Claim C4 -/

/-- A remote for which checking the stored thread fails with a generic
(non-not-found) error while every other call succeeds. -/
def oracle_thread_check_breaks : Oracle :=
  { assistants_create := fun _ => .ok "a-new"
    assistants_retrieve := fun _ _ => .ok ()
    threads_retrieve := fun _ _ => .err "connection reset"
    threads_create := fun _ => .ok "t-new"
    messages_create := fun _ _ => .ok ()
    runs_create := fun _ _ _ => .ok ()
    run_final_status := fun _ => "completed"
    messages_list := fun _ => .ok [("assistant", "RESP")] }

/-- A remote for which verifying the stored assistant fails with a
generic (non-not-found) error. -/
def oracle_assistant_check_breaks : Oracle :=
  { assistants_create := fun _ => .ok "a-new"
    assistants_retrieve := fun _ _ => .err "rate limited"
    threads_retrieve := fun _ _ => .ok 0
    threads_create := fun _ => .ok "t-new"
    messages_create := fun _ _ => .ok ()
    runs_create := fun _ _ _ => .ok ()
    run_final_status := fun _ => "completed"
    messages_list := fun _ => .ok [("assistant", "RESP")] }

/-- C4 counterexample: a non-not-found error while checking the stored
thread does NOT propagate as a `SessionError`: the run completes
normally, a new thread is created, and the stored thread identifier is
replaced — the persisted session state is mutated. -/
theorem thread_check_error_rotates_thread :
    process_with_openai_assistant oracle_thread_check_breaks 5 3
      ⟨some "a1", some "t1", some 0, 30⟩ [] =
      (.ok "RESP", ⟨some "a1", some "t-new", some 5, 30⟩,
       [.retrieveAssistant "a1", .retrieveThread "t1", .createThread,
        .createMessage, .createRun, .listMessages]) ∧
    (some "t-new" : Option String) ≠ some "t1" := by
  exact ⟨rfl, by decide⟩

/-- C4 amended: a non-not-found remote error while verifying the stored
assistant propagates as a `SessionError` and leaves the persisted
session state unchanged; but a non-not-found error while checking the
stored thread does not propagate — instead the manager rotates: it
creates a new thread whose identifier replaces the stored one, and the
call proceeds to completion. -/
theorem non_notfound_error_policy (o : Oracle) (now fuel : Nat)
    (cfg : SessionConfig) (trace : List ApiCall) (aid m : String)
    (haid : cfg.assistant_id = some aid) :
    (o.assistants_retrieve trace.length aid = .err m →
      strContains m "No assistant found" = false →
      process_with_openai_assistant o now (fuel + 1) cfg trace =
        (.sessionError (wrapErr m), cfg, trace ++ [.retrieveAssistant aid])) ∧
    (∀ tid tid2 resp rest,
      o.assistants_retrieve 0 aid = .ok () →
      cfg.thread_id = some tid →
      o.threads_retrieve 1 tid = .err m →
      strContains m "No thread found" = false →
      o.threads_create 2 = .ok tid2 →
      o.messages_create 3 tid2 = .ok () →
      o.runs_create 4 tid2 aid = .ok () →
      o.run_final_status 5 = "completed" →
      o.messages_list 5 = .ok (("assistant", resp) :: rest) →
      process_with_openai_assistant o now (fuel + 1) cfg [] =
        (.ok resp, { cfg with thread_id := some tid2, thread_created_at := some now },
         [.retrieveAssistant aid, .retrieveThread tid, .createThread,
          .createMessage, .createRun, .listMessages])) := by
  constructor
  · intro hretr hnf
    unfold process_with_openai_assistant process_step
    rw [haid]
    dsimp only
    rw [hretr]
    dsimp only
    rw [if_neg (show ¬(strContains m "No assistant found" = true) by rw [hnf]; simp)]
  · intro tid tid2 resp rest hretr htid htr hnf htc hmc hrc hstat hlist
    unfold process_with_openai_assistant process_step
    rw [haid]
    dsimp only [List.length_nil]
    rw [hretr]
    dsimp only
    unfold session_after_assistant
    rw [htid]
    dsimp only [List.nil_append, List.cons_append, List.length_cons, List.length_nil]
    rw [htr]
    dsimp only
    rw [if_neg (show ¬(strContains m "No thread found" = true) by rw [hnf]; simp)]
    dsimp only
    rw [if_pos (show ((some tid).isNone || true) = true by simp)]
    dsimp only [List.cons_append, List.nil_append, List.length_cons, List.length_nil]
    rw [htc]
    dsimp only [List.cons_append, List.nil_append, List.length_cons, List.length_nil]
    rw [hmc]
    dsimp only [List.cons_append, List.nil_append, List.length_cons, List.length_nil]
    rw [hrc]
    dsimp only [List.cons_append, List.nil_append, List.length_cons, List.length_nil]
    rw [hstat]
    rw [if_neg (show ¬(("completed" != "completed") = true) by simp)]
    rw [hlist]
    dsimp only
    rw [show (List.find? (fun p => p.1 == "assistant") (("assistant", resp) :: rest)) =
      some ("assistant", resp) by simp [List.find?]]
    dsimp only
    rw [haid]

/-- Witness for C4: the assistant-verification failure path at a
concrete oracle returns the wrapped `SessionError` with the session
state untouched. -/
theorem non_notfound_error_policy_witness :
    process_with_openai_assistant oracle_assistant_check_breaks 5 1
      ⟨some "a1", some "t1", some 0, 30⟩ [] =
      (.sessionError (wrapErr "rate limited"), ⟨some "a1", some "t1", some 0, 30⟩,
       [.retrieveAssistant "a1"]) := by
  exact (non_notfound_error_policy oracle_assistant_check_breaks 5 0
    ⟨some "a1", some "t1", some 0, 30⟩ [] "a1" "rate limited" rfl).1 rfl rfl

/-! ## Claim C5 -/

/-- A remote that reports "No assistant found" at assistant verification
and then once more at the first run creation (call index 4), succeeding
afterwards. -/
def oracle_run_flaky : Oracle :=
  { assistants_create := fun _ => .ok "b"
    assistants_retrieve := fun _ _ => .err "No assistant found: gone"
    threads_retrieve := fun _ _ => .ok 7
    threads_create := fun _ => .ok "t-new"
    messages_create := fun _ _ => .ok ()
    runs_create := fun k _ _ =>
      if k == 4 then .err "No assistant found while running" else .ok ()
    run_final_status := fun _ => "completed"
    messages_list := fun _ => .ok [("assistant", "done")] }

/-- A remote that reports "No assistant found" at every run creation. -/
def oracle_run_always_notfound : Oracle :=
  { assistants_create := fun _ => .ok "b"
    assistants_retrieve := fun _ _ => .ok ()
    threads_retrieve := fun _ _ => .ok 7
    threads_create := fun _ => .ok "t-new"
    messages_create := fun _ _ => .ok ()
    runs_create := fun _ _ _ => .err "No assistant found: zombie"
    run_final_status := fun _ => "completed"
    messages_list := fun _ => .ok [("assistant", "done")] }

/-- C5 counterexample: within one terminating call, the assistant
identifier is cleared twice (once at verification, once at the run
phase) and the assistant-creation step runs twice — more than the
claimed "at most once per identifier per call". -/
theorem assistant_recreated_twice_in_one_call :
    (process_with_openai_assistant oracle_run_flaky 7 10
      ⟨some "a", some "t", some 0, 30⟩ []).1 = .ok "done" ∧
    ((process_with_openai_assistant oracle_run_flaky 7 10
      ⟨some "a", some "t", some 0, 30⟩ []).2.2).count .createAssistant = 2 := by
  exact ⟨rfl, rfl⟩

/-- With a remote that always answers run creation with
"No assistant found" (and succeeds elsewhere, threads being fresh), the
self-heal recursion restarts on every pass: the call never reaches a
result at any fuel. -/
theorem process_diverges_of_run_notfound (o : Oracle) (now : Nat)
    (hac : ∀ k, ∃ a2, o.assistants_create k = ApiResult.ok a2)
    (har : ∀ k a2, o.assistants_retrieve k a2 = ApiResult.ok ())
    (htr : ∀ k t2, o.threads_retrieve k t2 = ApiResult.ok now)
    (htc : ∀ k, ∃ t2, o.threads_create k = ApiResult.ok t2)
    (hmc : ∀ k t2, o.messages_create k t2 = ApiResult.ok ())
    (hrc : ∀ k t2 a2, ∃ m2, o.runs_create k t2 a2 = ApiResult.err m2 ∧
      strContains m2 "No assistant found" = true) :
    ∀ fuel cfg trace,
      (process_with_openai_assistant o now fuel cfg trace).1 = .diverges := by
  intro fuel
  induction fuel with
  | zero => intro cfg trace; rfl
  | succ fuel ih =>
    intro cfg trace
    have hafter : ∀ cfg2 trace2 aid,
        (session_after_assistant o now
          (fun c t => process_with_openai_assistant o now fuel c t) cfg2 trace2 aid).1 =
          .diverges := by
      intro cfg2 trace2 aid
      unfold session_after_assistant
      cases htid : cfg2.thread_id with
      | none =>
        dsimp only
        obtain ⟨t2, ht2⟩ := htc trace2.length
        rw [if_pos (show ((none : Option String).isNone || false) = true by simp)]
        rw [ht2]
        dsimp only
        rw [hmc]
        dsimp only
        obtain ⟨m2, hm2, hm2c⟩ := hrc (trace2 ++ [ApiCall.createThread] ++
          [ApiCall.createMessage]).length t2 aid
        rw [hm2]
        dsimp only
        rw [if_pos (show strContains m2 "No assistant found" = true from hm2c)]
        dsimp only
        rw [ih]
        rfl
      | some tid =>
        dsimp only
        rw [htr]
        dsimp only
        rw [if_neg (show ¬(cfg2.thread_retention_days < now - now) by omega)]
        dsimp only
        rw [if_neg (show ¬(((some tid).isNone || false) = true) by simp)]
        dsimp only
        rw [htid]
        dsimp only [Option.getD]
        rw [hmc]
        dsimp only
        obtain ⟨m2, hm2, hm2c⟩ := hrc ((trace2 ++ [ApiCall.retrieveThread tid]) ++
          [ApiCall.createMessage]).length tid aid
        rw [hm2]
        dsimp only
        rw [if_pos (show strContains m2 "No assistant found" = true from hm2c)]
        dsimp only
        rw [ih]
        rfl
    unfold process_with_openai_assistant process_step
    cases hca : cfg.assistant_id with
    | none =>
      dsimp only
      obtain ⟨a2, ha2⟩ := hac trace.length
      rw [ha2]
      dsimp only
      exact hafter _ _ _
    | some aid =>
      dsimp only
      rw [har]
      dsimp only
      exact hafter _ _ _

/-- C5 amended: a "resource not found" signal for the stored assistant
clears exactly that identifier (thread state untouched) and restarts
from the creation step, but the retry is NOT bounded at one per
identifier per call: every further not-found signal triggers another
restart, and with a remote that keeps answering "No assistant found" at
run creation the call never terminates, at any recursion depth. -/
theorem self_heal_clears_and_retries_unbounded (o : Oracle) (now : Nat)
    (cfg : SessionConfig) (trace : List ApiCall) (fuel : Nat) (aid m : String) :
    (cfg.assistant_id = some aid →
      o.assistants_retrieve trace.length aid = .err m →
      strContains m "No assistant found" = true →
      process_with_openai_assistant o now (fuel + 1) cfg trace =
        ((rewrap (process_with_openai_assistant o now fuel
            { cfg with assistant_id := none } (trace ++ [.retrieveAssistant aid])).1),
         (process_with_openai_assistant o now fuel
            { cfg with assistant_id := none } (trace ++ [.retrieveAssistant aid])).2.1,
         (process_with_openai_assistant o now fuel
            { cfg with assistant_id := none } (trace ++ [.retrieveAssistant aid])).2.2)) ∧
    ((∀ k, ∃ a2, o.assistants_create k = ApiResult.ok a2) →
     (∀ k a2, o.assistants_retrieve k a2 = ApiResult.ok ()) →
     (∀ k t2, o.threads_retrieve k t2 = ApiResult.ok now) →
     (∀ k, ∃ t2, o.threads_create k = ApiResult.ok t2) →
     (∀ k t2, o.messages_create k t2 = ApiResult.ok ()) →
     (∀ k t2 a2, ∃ m2, o.runs_create k t2 a2 = ApiResult.err m2 ∧
        strContains m2 "No assistant found" = true) →
     (process_with_openai_assistant o now fuel cfg trace).1 = .diverges) := by
  constructor
  · intro haid hretr hnf
    rw [show process_with_openai_assistant o now (fuel + 1) cfg trace =
      process_step o now (fun c t => process_with_openai_assistant o now fuel c t) cfg trace
      from rfl]
    unfold process_step
    rw [haid]
    dsimp only
    rw [hretr]
    dsimp only
    rw [if_pos (show strContains m "No assistant found" = true from hnf)]
  · intro hac har htr htc hmc hrc
    exact process_diverges_of_run_notfound o now hac har htr htc hmc hrc fuel cfg trace

/-- Witness for C5: the always-not-found remote at a concrete session
and fuel leaves the call still recursing (no terminating outcome). -/
theorem self_heal_clears_and_retries_unbounded_witness :
    (process_with_openai_assistant oracle_run_always_notfound 7 5
      ⟨some "a", some "t", some 0, 30⟩ []).1 = .diverges := by
  exact (self_heal_clears_and_retries_unbounded oracle_run_always_notfound 7
    ⟨some "a", some "t", some 0, 30⟩ [] 5 "a" "m").2
    (fun k => ⟨"b", rfl⟩) (fun k a2 => rfl) (fun k t2 => rfl) (fun k => ⟨"t-new", rfl⟩)
    (fun k t2 => rfl) (fun k t2 a2 => ⟨"No assistant found: zombie", rfl, rfl⟩)

/-- Witness for C9: running a failing save on the freshly initialized
pool leaves no connection checked out and restores the pool exactly. -/
theorem store_operations_release_connections_witness :
    ((save_calendar_event true ⟨none, none, none, none, none, none, none, none,
        none, none, none, none, none, none⟩ initialize_db_pool ⟨[], 1⟩).2.1).used = [] ∧
    (save_calendar_event true ⟨none, none, none, none, none, none, none, none,
        none, none, none, none, none, none⟩ initialize_db_pool ⟨[], 1⟩).2.1 =
      initialize_db_pool := by
  have h := store_operations_release_connections true initialize_db_pool ⟨[], 1⟩
    ⟨none, none, none, none, none, none, none, none, none, none, none, none, none, none⟩
    "" "" "" 0 0 ⟨[], 0⟩ none
  exact ⟨h.2.2.1, (h.2.2.2.2.2.2.2 0 [] rfl).1⟩

end VoiceCalender
